import Mathlib

/-!
Verification development for the documentation mirror/sync library
(`scripts/sync_lib.py`).  Each Python function relevant to the checked
claims is translated into an executable Lean definition; effects
(filesystem, network) are made explicit as state or as input oracles.
-/

set_option linter.unusedVariables false

/- ============================================================
   Section 0: Python string primitives.
   Implemented over `List Char` (`String.data`) so that every
   definition evaluates by kernel reduction on concrete inputs.
   ============================================================ -/

/-- Python `str.strip()`: drop whitespace from both ends. -/
def pyStrip (s : String) : String :=
  ⟨((s.data.dropWhile Char.isWhitespace).reverse.dropWhile Char.isWhitespace).reverse⟩

/-- Python `str.lstrip()`: drop leading whitespace. -/
def pyLStrip (s : String) : String :=
  ⟨s.data.dropWhile Char.isWhitespace⟩

/-- Python `str.lower()` (ASCII case folding). -/
def pyLower (s : String) : String :=
  ⟨s.data.map Char.toLower⟩

/-- Python `len` on a string (code points). -/
def pyLen (s : String) : Nat :=
  s.data.length

/-- Python `s.startswith(pre)`. -/
def pyStartsWith (s pre : String) : Bool :=
  pre.data.isPrefixOf s.data

/-- Python `s.endswith(suf)`. -/
def pyEndsWith (s suf : String) : Bool :=
  suf.data.reverse.isPrefixOf s.data.reverse

/-- Python `s[n:]` (drop the first `n` code points). -/
def pyDrop (s : String) (n : Nat) : String :=
  ⟨s.data.drop n⟩

/-- Splitting worker for `pySplitOn`: split on the nonempty separator
`sep`, accumulating the current piece in reverse.  The `fuel` argument
only makes the recursion structural (each step consumes at least one
input character, so `input.length + 1` fuel is always enough); it does
not change the computed value. -/
def splitOnAux (sep : List Char) : Nat → List Char → List Char → List (List Char)
  | 0, l, acc => [acc.reverse ++ l]
  | _ + 1, [], acc => [acc.reverse]
  | fuel + 1, c :: rest, acc =>
    if sep.isPrefixOf (c :: rest) then
      acc.reverse :: splitOnAux sep fuel ((c :: rest).drop sep.length) []
    else splitOnAux sep fuel rest (c :: acc)

/-- Python `s.split(sep)` for a nonempty separator (the only way the
code calls it). -/
def pySplitOn (s sep : String) : List String :=
  match sep.data with
  | [] => [s]
  | c :: cs => (splitOnAux (c :: cs) (s.data.length + 1) s.data []).map (fun l => ⟨l⟩)

/-- Decimal digit run for `pyToInt`: `some` of the value iff the run is
nonempty and all digits. -/
def digitsToNat (cs : List Char) : Option Nat :=
  match cs with
  | [] => none
  | _ =>
    if cs.all Char.isDigit then
      some (cs.foldl (fun a c => a * 10 + (c.toNat - 48)) 0)
    else none

/-- Python `int(s)` on a string: surrounding whitespace, an optional
single sign, then decimal digits; `none` models the `ValueError` raise.
Exotic accepted forms (underscore separators, non-ASCII digits) are not
modelled; no claim rests on them. -/
def pyToInt (s : String) : Option Int :=
  match (pyStrip s).data with
  | '+' :: rest => (digitsToNat rest).map Int.ofNat
  | '-' :: rest => (digitsToNat rest).map (fun n => -(n : Int))
  | cs => (digitsToNat cs).map Int.ofNat


/- ============================================================
   Section 1: content validation and the content fetcher
   (`validate_markdown_content`, `download_content`)
   ============================================================ -/

/-- The `markdown_indicators` list from `validate_markdown_content`
(sync_lib.py line 53). -/
def markdown_indicators : List String :=
  ["# ", "## ", "### ", "```", "- ", "* ", "1. ", "[", "**", "> "]

/-- Python `ind in line` (substring containment): a separator occurs in
`line` iff splitting on it yields at least two pieces. -/
def containsSubstr (line ind : String) : Bool :=
  2 ≤ (pySplitOn line ind).length

/-- The indicator count of `validate_markdown_content`
(sync_lib.py lines 54-55): over the first 50 lines, count the
(line, indicator) pairs with the indicator occurring in the line. -/
def indicatorCount (content : String) : Nat :=
  (((pySplitOn content "\n").take 50).map
    (fun line => markdown_indicators.countP (fun ind => containsSubstr line ind))).sum

/-- `validate_markdown_content` (sync_lib.py lines 49-56).  Python
`content.strip()` is `pyStrip`; `not content` is the empty-string
test. -/
def validate_markdown_content (content : String) : Bool :=
  if content = "" ∨ pyLen (pyStrip content) < 50 then false
  else decide (3 ≤ indicatorCount content)

/-- The HTML prefix test of `download_content` (sync_lib.py lines 114-115):
`content.lstrip().lower()` starts with a doctype or html tag. -/
def looksLikeHtml (content : String) : Bool :=
  let lowered := pyLower (pyLStrip content)
  pyStartsWith lowered "<!doctype html" || pyStartsWith lowered "<html"

/-- Outcome of one HTTP request attempt inside `download_content`.
`rateLimited` is HTTP 429 and carries the raw `Retry-After` header text
(`none` when the header is absent); `http404` is HTTP 404, `httpError`
is any other `HTTPError`; `urlError`/`otherError` are the remaining
handlers. -/
inductive FetchAttempt where
  | success (content : String)
  | rateLimited (retryAfter : Option String)
  | http404
  | httpError (code : Nat)
  | urlError
  | otherError
deriving DecidableEq

/-- `e.headers.get("Retry-After", "60") or "60"` (sync_lib.py line 122):
an absent or empty header falls back to `"60"`. -/
def retryAfterHeader : Option String → String
  | none => "60"
  | some v => if v = "" then "60" else v

/-- Attempts that neither return nor raise, so the loop proceeds to the
next attempt: other HTTP errors, URL errors, other errors, and HTTP 429
whose `Retry-After` parses to a non-negative integer (a malformed or
negative one makes the handler raise `ValueError` instead — see
`download_content`). -/
def retriable : FetchAttempt → Bool
  | .success _ => false
  | .http404 => false
  | .rateLimited h =>
    match pyToInt (retryAfterHeader h) with
    | some wt => decide (0 ≤ wt)
    | none => false
  | _ => true

/-- `download_content` (sync_lib.py lines 98-142), as a function of the
sequence of per-attempt request outcomes (one list element per loop
iteration; the list length is the `max_retries` budget).  The result is
`Except`: `.error` models an uncaught exception escaping the function,
`.ok none` is the sentinel, `.ok (some c)` is success.  The one
uncaught raise path is in the 429 handler (line 122): `int()` on a
malformed `Retry-After` header raises `ValueError`, as does
`time.sleep` on a negative one; after the attempt budget is exhausted
the code falls through to `return None` (line 142). -/
def download_content (validate : String → Bool) :
    List FetchAttempt → Except Unit (Option String)
  | [] => .ok none
  | .success content :: _ =>
    if looksLikeHtml content then .ok none
    else if validate content then .ok (some content)
    else .ok none
  | .http404 :: _ => .ok none
  | .rateLimited h :: rest =>
    match pyToInt (retryAfterHeader h) with
    | none => .error ()
    | some wt => if wt < 0 then .error () else download_content validate rest
  | .httpError _ :: rest => download_content validate rest
  | .urlError :: rest => download_content validate rest
  | .otherError :: rest => download_content validate rest

/- ============================================================
   Section 2: AtomicSync (sync_lib.py lines 293-350)
   ============================================================ -/

/-- Contents of a directory: relative file name to file contents. -/
abbrev Dir := List (String × String)

/-- The three sibling locations `AtomicSync` manipulates: scratch
(`tmp_dir`), live (`target_dir`) and backup (`backup_dir`).  `none`
means the directory does not exist. -/
structure FSState where
  tmp : Option Dir
  target : Option Dir
  backup : Option Dir
deriving DecidableEq

/-- Result of `AtomicSync.commit`: either a normal return with the final
filesystem state, or a raised exception together with the state left
behind. -/
inductive CommitResult where
  | ok (fs : FSState)
  | raised (fs : FSState)
deriving DecidableEq

namespace AtomicSync

/-- `AtomicSync.commit` (sync_lib.py lines 307-346).  The rename of the
scratch directory onto the live location (line 321) may fail:
`renameOk = false` injects that failure, and `renameDebris` is whatever
the failed rename left at the live location (typically nothing, but a
partial cross-device copy is allowed).  `rollbackRmtreeOk` and
`renameBackOk` say whether the two best-effort rollback steps
(lines 325-326 and 330-331) themselves succeed; the initial stale-backup
removal (line 312) and the final scratch cleanup (line 335) are modelled
as succeeding. -/
def commit (fs : FSState) (renameOk : Bool) (renameDebris : Option Dir)
    (rollbackRmtreeOk renameBackOk : Bool) : CommitResult :=
  match fs.tmp with
  | none => .raised fs
  | some tdir =>
    let fs1 : FSState := { fs with backup := none }
    let had_old := fs1.target.isSome
    let fs2 : FSState :=
      if had_old then { fs1 with backup := fs1.target, target := none } else fs1
    if renameOk then
      .ok { fs2 with target := some tdir, tmp := none, backup := none }
    else
      let fs3 : FSState := { fs2 with target := renameDebris }
      let fs4 : FSState :=
        if fs3.target.isSome then
          (if rollbackRmtreeOk then { fs3 with target := none } else fs3)
        else fs3
      let fs5 : FSState :=
        if had_old ∧ fs4.backup.isSome ∧ fs4.target = none then
          (if renameBackOk then { fs4 with target := fs4.backup, backup := none } else fs4)
        else fs4
      let fs6 : FSState := { fs5 with tmp := none }
      .raised fs6

end AtomicSync

/- ============================================================
   Section 3: SitemapParser (sync_lib.py lines 179-238)
   ============================================================ -/

/-- `SitemapEntry` (sync_lib.py lines 173-176). -/
structure SitemapEntry where
  url : String
  lastmod : Option String
deriving DecidableEq

/-- The parsed root element of one fetched sitemap document, i.e. the
result of `ET.fromstring` plus the namespace-stripped root tag.
`sitemapindex` carries the raw `loc` texts of its `sitemap` children
(children with a missing or empty `loc` text are not listed);
`urlset` carries `(loc text, lastmod text)` pairs, with empty texts
already collapsed to absence as the code's truthiness tests do; the
code strips both texts (lines 219 and 221). -/
inductive XmlDoc where
  | sitemapindex (locs : List String)
  | urlset (items : List (String × Option String))
  | parseError
  | otherRoot (tag : String)

inductive SitemapErr where
  | downloadFailed
  | invalidXml
  | emptyIndex
  | unsupportedRoot
  | outOfFuel
deriving DecidableEq

namespace SitemapParser

/-- `SitemapParser._dedupe` (sync_lib.py lines 229-238), with the `seen`
set made explicit. -/
def dedupeAux (seen : List String) : List SitemapEntry → List SitemapEntry
  | [] => []
  | e :: rest =>
    if e.url ∈ seen then dedupeAux seen rest
    else e :: dedupeAux (e.url :: seen) rest

/-- `SitemapParser._dedupe`: drop later duplicates by `url`, first
occurrence wins. -/
def dedupe (entries : List SitemapEntry) : List SitemapEntry :=
  dedupeAux [] entries

/-- `SitemapParser._fetch_and_parse_recursive` (sync_lib.py lines
186-223).  `fetch` is the composition of `download_bytes` and XML
parsing: `none` means `download_bytes` raised.  The mutable `seen` set
is threaded through and returned; `fuel` bounds the recursion depth
(the Python code is guarded by `seen`, so any depth at least the number
of distinct sitemap URLs suffices). -/
def fetchAndParseRecursive (fetch : String → Option XmlDoc) :
    Nat → String → List String → Except SitemapErr (List SitemapEntry × List String)
  | 0, _, _ => .error .outOfFuel
  | fuel + 1, url, seen =>
    if url ∈ seen then .ok ([], seen)
    else
      let seen1 := url :: seen
      match fetch url with
      | none => .error .downloadFailed
      | some .parseError => .error .invalidXml
      | some (.otherRoot _) => .error .unsupportedRoot
      | some (.sitemapindex locs) =>
        let locs1 := locs.filterMap (fun l => if l = "" then none else some (pyStrip l))
        if locs1 = [] then .error .emptyIndex
        else
          match locs1.foldlM
            (fun acc loc => do
              let r ← fetchAndParseRecursive fetch fuel loc acc.2
              pure (acc.1 ++ r.1, r.2))
            (([] : List SitemapEntry), seen1) with
          | .error e => .error e
          | .ok r => .ok (dedupe r.1, r.2)
      | some (.urlset items) =>
        let entries := items.filterMap
          (fun it =>
            if it.1 = "" then none
            else some (SitemapEntry.mk (pyStrip it.1) (it.2.map pyStrip)))
        .ok (dedupe entries, seen1)

/-- `SitemapParser.fetch_and_parse` (sync_lib.py lines 183-184): start
the recursion with an empty `seen` set. -/
def fetch_and_parse (fetch : String → Option XmlDoc) (fuel : Nat) (sitemap_url : String) :
    Except SitemapErr (List SitemapEntry × List String) :=
  fetchAndParseRecursive fetch fuel sitemap_url []

end SitemapParser

/- ============================================================
   Section 4: Manifest.load (sync_lib.py lines 241-269)
   ============================================================ -/

/-- JSON values, as returned by `json.loads`.  Objects are the parsed
dictionaries (duplicate keys already collapsed by the parser, so lookup
takes the first match); numbers are modelled as integers, which covers
every number the manifest code reads or writes. -/
inductive Json where
  | null
  | bool (b : Bool)
  | num (n : Int)
  | str (s : String)
  | arr (elems : List Json)
  | obj (fields : List (String × Json))

mutual

/-- Structural equality of JSON values (Python `==` on parsed JSON). -/
def Json.beq : Json → Json → Bool
  | .null, .null => true
  | .bool a, .bool b => a == b
  | .num a, .num b => a == b
  | .str a, .str b => a == b
  | .arr as, .arr bs => Json.beqList as bs
  | .obj as, .obj bs => Json.beqFields as bs
  | _, _ => false

def Json.beqList : List Json → List Json → Bool
  | [], [] => true
  | a :: as, b :: bs => Json.beq a b && Json.beqList as bs
  | _, _ => false

def Json.beqFields : List (String × Json) → List (String × Json) → Bool
  | [], [] => true
  | (k1, v1) :: as, (k2, v2) :: bs => k1 == k2 && Json.beq v1 v2 && Json.beqFields as bs
  | _, _ => false

end

instance : BEq Json := ⟨Json.beq⟩

/-- Python truthiness of a JSON value. -/
def truthy : Json → Bool
  | .null => false
  | .bool b => b
  | .num n => decide (n ≠ 0)
  | .str s => decide (s ≠ "")
  | .arr xs => !xs.isEmpty
  | .obj fs => !fs.isEmpty

/-- Python `dict.get(k)` on a parsed JSON object. -/
def jGet (fields : List (String × Json)) (k : String) : Option Json :=
  (fields.find? (fun p => decide (p.1 = k))).map (fun p => p.2)

/-- Python `v or dflt` for an optional JSON value (`dict.get` result). -/
def pyOr (v : Option Json) (dflt : Json) : Json :=
  match v with
  | some j => if truthy j then j else dflt
  | none => dflt

/-- Python `dict[k] = v`: replace in place if the key is present,
otherwise append. -/
def pyDictSetJ (m : List (Json × Json)) (k v : Json) : List (Json × Json) :=
  if m.any (fun p => p.1 == k) then m.map (fun p => if p.1 == k then (k, v) else p)
  else m ++ [(k, v)]

/-- State of the manifest file on disk: absent, present but unreadable
(`path.read_text` or `json.loads` raises), or parsed JSON. -/
inductive ManifestFileState where
  | absent
  | unreadable
  | parsed (data : Json)

/-- The in-memory result of `Manifest.load`: the `meta` value and the
`entries` mapping.  Entry keys are JSON values because the list-format
conversion keys by whatever `e.get("url")` returned. -/
structure LoadedManifest where
  meta : Json
  entries : List (Json × Json)

/-- The exceptions `Manifest.load` can raise: `readFailed` is the
re-raised read/parse failure (line 260), `notAnObject` is the
`AttributeError` from `data.get` when the parsed document is not an
object (lines 262-263), `entriesNotAMapping` is the explicit
`RuntimeError` (line 267), and `unhashableUrl` is the `TypeError`
raised by the line-265 dict comprehension when a kept item's truthy
`url` value is unhashable (a non-empty list or dict). -/
inductive LoadErr where
  | readFailed
  | notAnObject
  | entriesNotAMapping
  | unhashableUrl
deriving DecidableEq

/-- Python hashability of a parsed JSON value: lists and dicts are
unhashable and cannot be dict keys; `None`, booleans, numbers and
strings are hashable. -/
def hashable : Json → Bool
  | .arr _ => false
  | .obj _ => false
  | _ => true

/-- One step of the list-to-dict comprehension of sync_lib.py line 265:
keep `e` iff it is an object whose `url` value is truthy, keyed by that
value; inserting under an unhashable key raises `TypeError`
(`.error .unhashableUrl`), which propagates out of `Manifest.load`
since only the file read sits inside the `try`. -/
def listToEntriesStep (acc : List (Json × Json)) (e : Json) :
    Except LoadErr (List (Json × Json)) :=
  match e with
  | .obj fields =>
    match jGet fields "url" with
    | some u =>
      if truthy u then
        (if hashable u then .ok (pyDictSetJ acc u e) else .error .unhashableUrl)
      else .ok acc
    | none => .ok acc
  | _ => .ok acc

/-- The list-to-dict conversion of sync_lib.py line 265:
`{e.get("url"): e for e in entries if isinstance(e, dict) and e.get("url")}`,
evaluated left to right, raising at the first unhashable kept key. -/
def listToEntries (xs : List Json) : Except LoadErr (List (Json × Json)) :=
  xs.foldlM listToEntriesStep []

/-- Whether a list item cannot make the comprehension raise: it is
dropped by the keep-condition, or its truthy `url` value is hashable. -/
def urlHashableItem : Json → Bool
  | .obj f =>
    match jGet f "url" with
    | some u => !truthy u || hashable u
    | none => true
  | _ => true

/-- Whether a JSON value is a list or an object — the shapes the
`entries` field may legally take in `Manifest.load`. -/
def isCollection : Json → Bool
  | .arr _ => true
  | .obj _ => true
  | _ => false

/-- Whether a JSON value is an object (a parsed dict). -/
def isObj : Json → Bool
  | .obj _ => true
  | _ => false

/-- The `url` field of a JSON manifest item, when the item is an object. -/
def urlOfItem : Json → Option Json
  | .obj f => jGet f "url"
  | _ => none

/-- Python `isinstance(e, dict) and e.get("url")`: the keep-condition of
the list-format conversion. -/
def keptItem : Json → Bool
  | .obj f =>
    match jGet f "url" with
    | some u => truthy u
    | none => false
  | _ => false

namespace Manifest

/-- `Manifest.load` (sync_lib.py lines 251-269). -/
def load : ManifestFileState → Except LoadErr LoadedManifest
  | .absent => .ok ⟨Json.obj [], []⟩
  | .unreadable => .error .readFailed
  | .parsed data =>
    match data with
    | .obj fields =>
      let meta := pyOr (jGet fields "meta") (Json.obj [])
      let entriesVal := pyOr (jGet fields "entries") (Json.obj [])
      match entriesVal with
      | .arr xs => (listToEntries xs).map (fun es => (⟨meta, es⟩ : LoadedManifest))
      | .obj efs => .ok ⟨meta, efs.map (fun p => (Json.str p.1, p.2))⟩
      | _ => .error .entriesNotAMapping
    | _ => .error .notAnObject

end Manifest

/- ============================================================
   Section 5: title/description extraction and the sync
   orchestrator `sync_docs` (sync_lib.py lines 145-170, 366-543)
   ============================================================ -/

/-- The inner `for j in range(i+1, min(i+5, len(lines)))` loop of
`extract_title_and_description` (sync_lib.py lines 155-167): scan at
most 4 following lines for the description. -/
def descFrom : Nat → List String → Option String
  | 0, _ => none
  | _, [] => none
  | k + 1, l :: rest =>
    let next := pyStrip l
    if next = "" then descFrom k rest
    else if pyStartsWith next "---" then none
    else if pyStartsWith next "## " ∨ pyStartsWith next "# " then none
    else if pyStartsWith next "> " then some (pyStrip (pyDrop next 2))
    else some next

/-- The outer scan of `extract_title_and_description`: find the first
line whose stripped form starts with a level-1 heading marker. -/
def extractGo : List String → Option String × Option String
  | [] => (none, none)
  | l :: rest =>
    let stripped := pyStrip l
    if pyStartsWith stripped "# " then
      (some (pyStrip (pyDrop stripped 2)), descFrom 4 rest)
    else extractGo rest

/-- `extract_title_and_description` (sync_lib.py lines 145-170). -/
def extract_title_and_description (content : String) : Option String × Option String :=
  extractGo (pySplitOn content "\n")

/-- `md_url` computation in the fetch branch of `sync_docs`
(sync_lib.py line 450). -/
def md_url (url : String) : String :=
  if pyEndsWith url ".md" then url else url ++ ".md"

/-- One manifest entry as written by `sync_docs` (sync_lib.py lines
479-488).  `title` and `description` are stored as `x or ""`, so they
are plain strings; `last_sync_time` is a string timestamp. -/
structure MEntry where
  url : String
  lastmod : Option String
  local_path : String
  title : String
  description : String
  last_sync_time : String
deriving DecidableEq

/-- Python `dict.get` on a url-keyed mapping (`Manifest.get`,
sync_lib.py lines 271-272). -/
def mLookup (m : List (String × MEntry)) (u : String) : Option MEntry :=
  (m.find? (fun p => decide (p.1 = u))).map (fun p => p.2)

/-- Python `dict[k] = v` on a string-keyed mapping (`Manifest.set`
upsert, sync_lib.py lines 274-278, and file writes that overwrite). -/
def pyDictSet {α : Type} (m : List (String × α)) (k : String) (v : α) :
    List (String × α) :=
  if m.any (fun p => decide (p.1 = k)) then
    m.map (fun p => if p.1 = k then (k, v) else p)
  else m ++ [(k, v)]

/-- The external collaborators and effect oracles `sync_docs` consumes:
`fetch` is the result of `download_content` on a given URL (`none` for
the not-found/invalid sentinel and for exhausted retries), `live` gives
the contents of the live mirror file at a relative path (`none` if the
file does not exist), and the remaining fields are the caller-supplied
policy functions (an absent `postprocess_content` is the identity). -/
structure SyncWorld where
  fetch : String → Option String
  live : String → Option String
  url_to_rel_path : String → String
  postprocess_content : String → String → String
  generate_index : List (String × String × String × String) → String

/-- The keyword parameters of `sync_docs` relevant to its control flow
(sync_lib.py lines 366-383).  Ratios are exact rationals standing for
the Python floats. -/
structure SyncConfig where
  force : Bool
  sanity_drop_ratio : ℚ
  max_fail_ratio : ℚ
  required_files : List String
  manifest_filename : String
  index_filename : String

/-- A file staged in the scratch tree: either text written with
`write_text`/`copy2`, or the serialized new manifest written by
`new_manifest.save()` (sync_lib.py line 517), kept structured since
nothing reads it back within a run. -/
inductive ScratchFile where
  | text (s : String)
  | manifestFile (meta_last_sync_time : String) (meta_last_url_count : Nat)
      (entries : List (String × MEntry))
deriving DecidableEq

/-- The mutable state of the per-entry loop of `sync_docs`
(sync_lib.py lines 415-424). -/
structure LoopState where
  success_count : Nat
  fail_count : Nat
  downloaded_count : Nat
  reused_count : Nat
  scratch : List (String × ScratchFile)
  docs_info : List (String × String × String × String)
  manifest : List (String × MEntry)
deriving DecidableEq

/-- The initial loop state: zero counters, empty scratch tree, empty
new manifest. -/
def initLoopState : LoopState :=
  ⟨0, 0, 0, 0, [], [], []⟩

/-- The reuse/refetch decision of `sync_docs` (lines 432-441):
`need_download` is true when the caller forces, no prior manifest entry
exists, either `lastmod` is absent or they differ, or the previously
mirrored file is missing from the live directory. -/
def needDownload (force : Bool) (old : List (String × MEntry))
    (live : String → Option String) (rel : String) (e : SitemapEntry) : Bool :=
  let old_entry := if force then none else mLookup old e.url
  match old_entry with
  | none => true
  | some oe =>
    match e.lastmod, oe.lastmod with
    | some nl, some ol => if nl ≠ ol then true else (live rel).isNone
    | _, _ => true

/-- One iteration of the entry loop of `sync_docs` (lines 426-488). -/
def processEntry (w : SyncWorld) (force : Bool) (old : List (String × MEntry))
    (now : String) (st : LoopState) (e : SitemapEntry) : LoopState :=
  let rel := w.url_to_rel_path e.url
  let old_entry := if force then none else mLookup old e.url
  if needDownload force old w.live rel e then
    match w.fetch (md_url e.url) with
    | none => { st with fail_count := st.fail_count + 1 }
    | some content =>
      let td := extract_title_and_description content
      let title := td.1.getD ""
      let description := td.2.getD ""
      let processed := w.postprocess_content content rel
      { st with
          scratch := pyDictSet st.scratch rel (.text processed)
          downloaded_count := st.downloaded_count + 1
          success_count := st.success_count + 1
          docs_info := st.docs_info ++ [(e.url, title, description, rel)]
          manifest := pyDictSet st.manifest e.url
            ⟨e.url, e.lastmod, rel, title, description, now⟩ }
  else
    let title := (old_entry.map (fun oe => oe.title)).getD ""
    let description := (old_entry.map (fun oe => oe.description)).getD ""
    let entry_sync_time :=
      match old_entry with
      | some oe => if oe.last_sync_time = "" then now else oe.last_sync_time
      | none => now
    let copied := (w.live rel).getD ""
    { st with
        scratch := pyDictSet st.scratch rel (.text copied)
        reused_count := st.reused_count + 1
        success_count := st.success_count + 1
        docs_info := st.docs_info ++ [(e.url, title, description, rel)]
        manifest := pyDictSet st.manifest e.url
          ⟨e.url, e.lastmod, rel, title, description, entry_sync_time⟩ }

/-- The whole entry loop (lines 426-488), folding `processEntry` over
the filtered sitemap entries. -/
def runLoop (w : SyncWorld) (force : Bool) (old : List (String × MEntry))
    (now : String) (entries : List SitemapEntry) : LoopState :=
  entries.foldl (processEntry w force old now) initLoopState

/-- Whether one entry ends in the `success_count += 1` path of the loop:
a reused entry always does, a refetched entry does iff
`download_content` returned content. -/
def entrySucceeds (w : SyncWorld) (force : Bool) (old : List (String × MEntry))
    (e : SitemapEntry) : Bool :=
  if needDownload force old w.live (w.url_to_rel_path e.url) e then
    (w.fetch (md_url e.url)).isSome
  else true

/-- The `meta["last_url_count"]` value read back from the previous
manifest (sync_lib.py line 401), before normalization. -/
inductive CountVal where
  | cint (n : Int)
  | cstr (s : String)
  | cother
deriving DecidableEq

/-- The normalization of `prev_url_count` (lines 402-403): digit-only
strings are converted with `int`, integers pass through, anything else
is not an integer afterwards. -/
def normPrevCount : Option CountVal → Option Int
  | some (.cint n) => some n
  | some (.cstr s) => s.toNat?.map Int.ofNat
  | some .cother => none
  | none => none

/-- The sanity check (lines 404-410): returns `some prev` when the run
must abort because the URL count dropped by more than
`sanity_drop_ratio`. -/
def sanityDropExceeded (prevVal : Option CountVal) (cur : Nat) (ratio : ℚ) :
    Option Int :=
  match normPrevCount prevVal with
  | some prev =>
    if 0 < prev ∧ mkRat (prev - (cur : Int)) prev.toNat > ratio then some prev
    else none
  | none => none

/-- The scratch tree as it stands at the required-files check
(lines 512-527): the loop's files, plus the generated index, plus the
saved new manifest. -/
def stagedScratch (w : SyncWorld) (cfg : SyncConfig) (st : LoopState)
    (now : String) (urlCount : Nat) : List (String × ScratchFile) :=
  pyDictSet
    (pyDictSet st.scratch cfg.index_filename (.text (w.generate_index st.docs_info)))
    cfg.manifest_filename (.manifestFile now urlCount st.manifest)

/-- Outcome of a `sync_docs` run: every early `return 1` site gets its
own constructor; `committed` is the `atomic.commit()` success path
returning 0. -/
inductive SyncOutcome where
  | noEntries
  | sanityAbort (prev : Int) (cur : Nat)
  | failRatioAbort (st : LoopState)
  | noSuccessAbort (st : LoopState)
  | missingRequired (missing : List String) (st : LoopState)
  | missingIndex (st : LoopState)
  | committed (st : LoopState) (finalScratch : List (String × ScratchFile))
deriving DecidableEq

/-- The process exit contribution of `sync_docs`: 0 only on commit. -/
def returnCode : SyncOutcome → Nat
  | .committed _ _ => 0
  | _ => 1

/-- `sync_docs` (sync_lib.py lines 366-543) as a function of the world,
configuration, the previous manifest's `last_url_count` meta value and
entry mapping, the filtered sitemap entries, and the run timestamp
`now = utc_now_iso()`.  Directory-only aspects (`clean_empty_dirs`,
`request_delay`) do not affect the modelled state. -/
def sync_docs (w : SyncWorld) (cfg : SyncConfig) (prevCount : Option CountVal)
    (old : List (String × MEntry)) (entries : List SitemapEntry)
    (now : String) : SyncOutcome :=
  if entries.length = 0 then .noEntries
  else
    match sanityDropExceeded prevCount entries.length cfg.sanity_drop_ratio with
    | some prev => .sanityAbort prev entries.length
    | none =>
      let st := runLoop w cfg.force old now entries
      if mkRat (st.fail_count : Int) entries.length > cfg.max_fail_ratio then
        .failRatioAbort st
      else if st.success_count = 0 then .noSuccessAbort st
      else
        let scr := stagedScratch w cfg st now entries.length
        let missing := cfg.required_files.filter
          (fun p => !(scr.any (fun q => decide (q.1 = p))))
        if missing ≠ [] then .missingRequired missing st
        else if !(scr.any (fun q => decide (q.1 = cfg.index_filename))) then
          .missingIndex st
        else .committed st scr

/- ============================================================
   Section 6: concrete inputs used by the closed instances
   ============================================================ -/

/-- A small but genuine markdown document: more than 50 stripped
characters and at least 3 indicator hits in its first lines. -/
def mdSample : String :=
  "# Overview\n\nThis page describes the sync pipeline in detail.\n- fetch\n- validate\n"

/-- The sitemap fixture of the sitemap-index expansion property: a root
index with two leaf children of 2 URLs each, sharing the duplicate
URL `b`. -/
def exampleFetch : String → Option XmlDoc := fun u =>
  if u = "root" then some (.sitemapindex ["c1", "c2"])
  else if u = "c1" then some (.urlset [("a", none), ("b", none)])
  else if u = "c2" then some (.urlset [("b", none), ("c", none)])
  else none

/- ============================================================
   Theorems
   ============================================================ -/

/-- C1: if `AtomicSync.commit` fails during the rename of the scratch
directory into the live location, the builder performs best-effort
rollback (here: the rollback primitives themselves succeed, the
"when possible" of the claim) and re-raises, and afterwards the live
directory holds exactly the original pre-run snapshot (restored from
the backup when one was taken) — never a mixture of old and new
files, whatever debris the failed rename left behind. -/
theorem commit_rename_failure_restores_live (fs : FSState) (d : Dir)
    (debris : Option Dir) (h : fs.tmp = some d) :
    AtomicSync.commit fs false debris true true =
      .raised ⟨none, fs.target, none⟩ := by
  rcases fs with ⟨t, tgt, bak⟩
  simp only at h
  subst h
  cases tgt <;> cases debris <;>
    simp [AtomicSync.commit]

/-- Witness for C1: a concrete commit with an existing live directory,
a failing rename that leaves debris, ends raised with the live
directory exactly the old snapshot. -/
theorem commit_rename_failure_restores_live_witness :
    AtomicSync.commit
      ⟨some [("new.md", "new")], some [("old.md", "old")], some [("stale", "s")]⟩
      false (some [("junk", "j")]) true true =
      .raised ⟨none, some [("old.md", "old")], none⟩ :=
  commit_rename_failure_restores_live _ _ _ rfl

/-- C9: `validate_markdown_content` returns false for every input whose
whitespace-stripped length is below 50 characters (including the empty
string), regardless of how many markdown indicators it contains. -/
theorem validate_markdown_min_length (c : String) (h : pyLen (pyStrip c) < 50) :
    validate_markdown_content c = false := by
  unfold validate_markdown_content
  rw [if_pos (Or.inr h)]

/-- Witness for C9: a short string that contains three indicator hits
(so the indicator heuristic alone would accept it) is still rejected. -/
theorem validate_markdown_min_length_witness :
    pyLen (pyStrip "# a\n- b\n> c") < 50 ∧
    3 ≤ indicatorCount "# a\n- b\n> c" ∧
    validate_markdown_content "# a\n- b\n> c" = false :=
  ⟨by decide, by decide, validate_markdown_min_length _ (by decide)⟩

/-- C4: before any staging, if the previous manifest's recorded URL
count normalizes to a positive integer and the current filtered entry
count dropped by more than `sanity_drop_ratio`, the run aborts with a
nonzero result at the sanity check (an outcome that stages and commits
nothing, leaving live mirror and manifest untouched). -/
theorem sync_docs_sanity_drop_guard (w : SyncWorld) (cfg : SyncConfig)
    (prevCount : Option CountVal) (old : List (String × MEntry))
    (entries : List SitemapEntry) (now : String) (prev : Int)
    (hne : entries.length ≠ 0)
    (hprev : normPrevCount prevCount = some prev)
    (hpos : 0 < prev)
    (hdrop : mkRat (prev - (entries.length : Int)) prev.toNat >
      cfg.sanity_drop_ratio) :
    sync_docs w cfg prevCount old entries now = .sanityAbort prev entries.length ∧
    returnCode (sync_docs w cfg prevCount old entries now) = 1 := by
  have hs : sanityDropExceeded prevCount entries.length cfg.sanity_drop_ratio =
      some prev := by
    simp only [sanityDropExceeded, hprev]
    rw [if_pos ⟨hpos, hdrop⟩]
  have hmain : sync_docs w cfg prevCount old entries now =
      .sanityAbort prev entries.length := by
    unfold sync_docs
    rw [if_neg hne, hs]
  exact ⟨hmain, by rw [hmain]; rfl⟩

/-- Witness for C4: previous count 100, current count 70 (a 30% drop
against the default 20% threshold) aborts with exit code 1. -/
theorem sync_docs_sanity_drop_guard_witness :
    sync_docs
      ⟨fun _ => none, fun _ => none, fun u => u, fun c _ => c, fun _ => ""⟩
      ⟨false, mkRat 20 100, mkRat 15 100, [], ".manifest.json", "index.md"⟩
      (some (.cint 100)) [] (List.replicate 70 ⟨"u", none⟩) "now" =
      .sanityAbort 100 70 ∧
    returnCode (sync_docs
      ⟨fun _ => none, fun _ => none, fun u => u, fun c _ => c, fun _ => ""⟩
      ⟨false, mkRat 20 100, mkRat 15 100, [], ".manifest.json", "index.md"⟩
      (some (.cint 100)) [] (List.replicate 70 ⟨"u", none⟩) "now") = 1 := by
  have h := sync_docs_sanity_drop_guard
    ⟨fun _ => none, fun _ => none, fun u => u, fun c _ => c, fun _ => ""⟩
    ⟨false, mkRat 20 100, mkRat 15 100, [], ".manifest.json", "index.md"⟩
    (some (.cint 100)) [] (List.replicate 70 ⟨"u", none⟩) "now" 100
    (by decide) rfl (by norm_num) (by decide)
  simpa using h


/-- Helper for C5: every attempt outcome that is neither a success nor
an HTTP 404 falls through to the next iteration, so a run of retriable
outcomes exhausts the budget and returns the sentinel. -/
theorem download_content_all_retriable (v : String → Bool) :
    ∀ (l : List FetchAttempt), (∀ a ∈ l, retriable a = true) →
      download_content v l = .ok none := by
  intro l
  induction l with
  | nil => intro _; rfl
  | cons a rest ih =>
    intro h
    have ha := h a (List.mem_cons_self a rest)
    have hr : ∀ x ∈ rest, retriable x = true :=
      fun x hx => h x (List.mem_cons_of_mem a hx)
    cases a with
    | success s => simp [retriable] at ha
    | http404 => simp [retriable] at ha
    | rateLimited hdr =>
      cases hp : pyToInt (retryAfterHeader hdr) with
      | none => simp [retriable, hp] at ha
      | some wt =>
        simp only [retriable, hp] at ha
        have hwt : ¬(wt < 0) := by
          have h0 := of_decide_eq_true ha
          omega
        simp only [download_content, hp]
        rw [if_neg hwt]
        exact ih hr
    | httpError n => exact ih hr
    | urlError => exact ih hr
    | otherError => exact ih hr

/-- Helper: the 429 handler's raise paths survive in the model — a
malformed `Retry-After` header makes `int()` raise `ValueError`, and a
negative one makes `time.sleep` raise, both escaping `download_content`
(sync_lib.py line 122). -/
theorem download_content_retry_after_value_error :
    download_content validate_markdown_content [.rateLimited (some "soon")] =
      .error () ∧
    download_content validate_markdown_content [.rateLimited (some "-5")] =
      .error () :=
  ⟨rfl, rfl⟩

/-- C5 counterexample: after exhausting the fixed retry budget on
transient errors, `download_content` returns the not-found sentinel —
it does not raise a hard failure as the claim states (contrast
`download_bytes`, sync_lib.py line 95, which does raise). -/
theorem download_content_retry_exhaustion_cex :
    download_content validate_markdown_content [.urlError, .urlError, .urlError] =
      .ok none ∧
    download_content validate_markdown_content [.urlError, .urlError, .urlError] ≠
      .error () :=
  ⟨rfl, fun h => Except.noConfusion h⟩

/-- C5 (amended): the content fetcher returns the document text on a
successful, valid response; returns the sentinel (not an error) for
HTTP 404; and after exhausting the fixed maximum retry attempts on
other swallowed errors (non-404 HTTP errors, URL errors, other
exceptions, and 429s whose `Retry-After` the handler accepts) it
likewise returns the sentinel rather than raising. -/
theorem download_content_contract (v : String → Bool)
    (attempts rest : List FetchAttempt) (c : String)
    (hAll : ∀ a ∈ attempts, retriable a = true)
    (hhtml : looksLikeHtml c = false) (hv : v c = true) :
    download_content v attempts = .ok none ∧
    download_content v (.http404 :: rest) = .ok none ∧
    download_content v (.success c :: rest) = .ok (some c) := by
  refine ⟨download_content_all_retriable v attempts hAll, rfl, ?_⟩
  simp [download_content, hhtml, hv]

/-- Witness for C5: concrete runs — a budget of swallowed errors gives
the sentinel, a 404 gives the sentinel, a valid markdown body is
returned verbatim. -/
theorem download_content_contract_witness :
    download_content validate_markdown_content
      [.httpError 500, .rateLimited (some "60"), .otherError] = .ok none ∧
    download_content validate_markdown_content [.http404] = .ok none ∧
    download_content validate_markdown_content [.success mdSample] =
      .ok (some mdSample) :=
  download_content_contract validate_markdown_content
    [.httpError 500, .rateLimited (some "60"), .otherError] [] mdSample
    (by decide) (by decide) (by decide)

/-- C6 counterexample: a fetched text that passes both checks stated by
the claim — it does not start with a doctype/html tag and it has at
least 3 indicator hits in its first 50 lines — is still rejected
(sentinel, not returned verbatim), because `validate_markdown_content`
additionally requires at least 50 stripped characters. -/
theorem content_validation_short_cex :
    looksLikeHtml "# a\n- b\n> c" = false ∧
    3 ≤ indicatorCount "# a\n- b\n> c" ∧
    download_content validate_markdown_content [.success "# a\n- b\n> c"] =
      .ok none :=
  ⟨rfl, by decide, rfl⟩

/-- C6 (amended): content validation rejects fetched text that begins
(case-insensitively, after leading whitespace) with a doctype/html tag,
rejects text with fewer than 3 indicator hits within its first 50
lines, and — additionally to the claim — rejects text whose stripped
length is below 50 characters; text passing all three checks is
returned verbatim. -/
theorem content_validation_behavior (c1 c2 c3 : String)
    (rest1 rest2 rest3 : List FetchAttempt)
    (h1 : indicatorCount c1 < 3)
    (h2 : looksLikeHtml c2 = true)
    (h3a : looksLikeHtml c3 = false)
    (h3b : ¬(c3 = "" ∨ pyLen (pyStrip c3) < 50))
    (h3c : 3 ≤ indicatorCount c3) :
    download_content validate_markdown_content (.success c1 :: rest1) = .ok none ∧
    download_content validate_markdown_content (.success c2 :: rest2) = .ok none ∧
    download_content validate_markdown_content (.success c3 :: rest3) =
      .ok (some c3) ∧
    validate_markdown_content c3 = true := by
  have hv3 : validate_markdown_content c3 = true := by
    unfold validate_markdown_content
    rw [if_neg h3b]
    simpa using h3c
  have hv1 : validate_markdown_content c1 = false := by
    unfold validate_markdown_content
    split
    · rfl
    · simpa using Nat.not_le.mpr h1
  refine ⟨?_, ?_, ?_, hv3⟩
  · simp only [download_content]
    split
    · rfl
    · rw [hv1]
      rfl
  · simp [download_content, h2]
  · simp [download_content, h3a, hv3]

/-- Witness for C6: plain prose is rejected for lacking indicators, an
HTML page is rejected by the prefix check, and a long-enough markdown
body passes and is returned verbatim. -/
theorem content_validation_behavior_witness :
    download_content validate_markdown_content
      [.success "just some plain prose with no structure at all here"] = .ok none ∧
    download_content validate_markdown_content
      [.success "  <HTML><body>Moved</body></HTML>"] = .ok none ∧
    download_content validate_markdown_content [.success mdSample] =
      .ok (some mdSample) ∧
    validate_markdown_content mdSample = true :=
  content_validation_behavior
    "just some plain prose with no structure at all here"
    "  <HTML><body>Moved</body></HTML>" mdSample [] [] []
    (by decide) (by decide) (by decide) (by decide) (by decide)

/-- Helper: membership in a Python-style dict upsert — any member is
either the inserted pair or was already present. -/
theorem pyDictSetJ_mem (m : List (Json × Json)) (k v : Json) (p : Json × Json)
    (hp : p ∈ pyDictSetJ m k v) : p = (k, v) ∨ p ∈ m := by
  unfold pyDictSetJ at hp
  split at hp
  · rcases List.mem_map.mp hp with ⟨q, hq, hqe⟩
    rw [← hqe]
    by_cases h : (q.1 == k) = true
    · simp [h]
    · simp only [h, if_false]
      exact Or.inr hq
  · rcases List.mem_append.mp hp with h | h
    · exact Or.inr h
    · left
      simpa using h

/-- Helper: a successful comprehension step preserves the invariant
that every kept pair is an object item keyed by its own truthy `url`
value. -/
theorem listToEntriesStep_invariant (acc acc2 : List (Json × Json)) (e : Json)
    (h : ∀ p ∈ acc, keptItem p.2 = true ∧ urlOfItem p.2 = some p.1)
    (hstep : listToEntriesStep acc e = .ok acc2) :
    ∀ p ∈ acc2, keptItem p.2 = true ∧ urlOfItem p.2 = some p.1 := by
  intro p hp
  cases e with
  | obj fields =>
    cases hu : jGet fields "url" with
    | none =>
      simp only [listToEntriesStep, hu] at hstep
      cases Except.ok.inj hstep
      exact h p hp
    | some u =>
      simp only [listToEntriesStep, hu] at hstep
      by_cases ht : truthy u = true
      · rw [if_pos ht] at hstep
        by_cases hh : hashable u = true
        · rw [if_pos hh] at hstep
          cases Except.ok.inj hstep
          rcases pyDictSetJ_mem _ _ _ _ hp with he | hm
          · subst he
            refine ⟨?_, ?_⟩
            · simp [keptItem, hu, ht]
            · simp [urlOfItem, hu]
          · exact h p hm
        · rw [if_neg hh] at hstep
          exact Except.noConfusion hstep
      · rw [if_neg ht] at hstep
        cases Except.ok.inj hstep
        exact h p hp
  | null =>
    cases Except.ok.inj hstep
    exact h p hp
  | bool b =>
    cases Except.ok.inj hstep
    exact h p hp
  | num n =>
    cases Except.ok.inj hstep
    exact h p hp
  | str s =>
    cases Except.ok.inj hstep
    exact h p hp
  | arr ys =>
    cases Except.ok.inj hstep
    exact h p hp

/-- Helper: every pair produced by a successful list-format conversion
is an object item keyed by its own truthy `url` value. -/
theorem listToEntries_mem (xs : List Json) (es : List (Json × Json))
    (hok : listToEntries xs = .ok es) :
    ∀ p ∈ es, keptItem p.2 = true ∧ urlOfItem p.2 = some p.1 := by
  have main : ∀ (ys : List Json) (acc : List (Json × Json)),
      (∀ p ∈ acc, keptItem p.2 = true ∧ urlOfItem p.2 = some p.1) →
      ∀ (es2 : List (Json × Json)),
        ys.foldlM listToEntriesStep acc = .ok es2 →
        ∀ p ∈ es2, keptItem p.2 = true ∧ urlOfItem p.2 = some p.1 := by
    intro ys
    induction ys with
    | nil =>
      intro acc h es2 hf
      rw [List.foldlM_nil] at hf
      cases Except.ok.inj hf
      exact h
    | cons e rest ih =>
      intro acc h es2 hf
      rw [List.foldlM_cons] at hf
      cases hstep : listToEntriesStep acc e with
      | error e2 =>
        rw [hstep] at hf
        exact Except.noConfusion hf
      | ok a =>
        rw [hstep] at hf
        exact ih a (listToEntriesStep_invariant acc a e h hstep) es2 hf
  exact main xs [] (by simp) es hok

/-- Helper: the only exception the list-format conversion raises is the
`TypeError` for a truthy unhashable `url`. -/
theorem listToEntries_error (xs : List Json) (err : LoadErr)
    (herr : listToEntries xs = .error err) : err = .unhashableUrl := by
  have main : ∀ (ys : List Json) (acc : List (Json × Json)),
      ys.foldlM listToEntriesStep acc = .error err → err = .unhashableUrl := by
    intro ys
    induction ys with
    | nil =>
      intro acc hf
      rw [List.foldlM_nil] at hf
      exact Except.noConfusion hf
    | cons e rest ih =>
      intro acc hf
      rw [List.foldlM_cons] at hf
      cases hstep : listToEntriesStep acc e with
      | ok a =>
        rw [hstep] at hf
        exact ih a hf
      | error e2 =>
        rw [hstep] at hf
        have he2 : e2 = err := Except.error.inj hf
        cases he2
        cases e with
        | obj fields =>
          cases hu : jGet fields "url" with
          | none => simp [listToEntriesStep, hu] at hstep
          | some u =>
            simp only [listToEntriesStep, hu] at hstep
            by_cases ht : truthy u = true
            · rw [if_pos ht] at hstep
              by_cases hh : hashable u = true
              · rw [if_pos hh] at hstep
                exact Except.noConfusion hstep
              · rw [if_neg hh] at hstep
                exact (Except.error.inj hstep).symm
            · rw [if_neg ht] at hstep
              exact Except.noConfusion hstep
        | null => exact Except.noConfusion hstep
        | bool b => exact Except.noConfusion hstep
        | num n => exact Except.noConfusion hstep
        | str s => exact Except.noConfusion hstep
        | arr ys2 => exact Except.noConfusion hstep
  exact main xs [] herr

/-- Helper: if every kept item carries a hashable `url` value, the
list-format conversion succeeds. -/
theorem listToEntries_ok_of_hashable (xs : List Json)
    (hall : ∀ e ∈ xs, urlHashableItem e = true) :
    ∃ es, listToEntries xs = .ok es := by
  have main : ∀ (ys : List Json), (∀ e ∈ ys, urlHashableItem e = true) →
      ∀ (acc : List (Json × Json)),
        ∃ es, ys.foldlM listToEntriesStep acc = .ok es := by
    intro ys
    induction ys with
    | nil =>
      intro _ acc
      exact ⟨acc, rfl⟩
    | cons e rest ih =>
      intro hys acc
      have he := hys e (List.mem_cons_self e rest)
      have hrest : ∀ x ∈ rest, urlHashableItem x = true :=
        fun x hx => hys x (List.mem_cons_of_mem e hx)
      have hstep : ∃ a, listToEntriesStep acc e = .ok a := by
        cases e with
        | obj fields =>
          cases hu : jGet fields "url" with
          | none => exact ⟨acc, by simp [listToEntriesStep, hu]⟩
          | some u =>
            by_cases ht : truthy u = true
            · have hh : hashable u = true := by
                simp only [urlHashableItem, hu, ht] at he
                simpa using he
              exact ⟨pyDictSetJ acc u (Json.obj fields),
                by simp [listToEntriesStep, hu, ht, hh]⟩
            · exact ⟨acc, by simp [listToEntriesStep, hu, ht]⟩
        | null => exact ⟨acc, rfl⟩
        | bool b => exact ⟨acc, rfl⟩
        | num n => exact ⟨acc, rfl⟩
        | str s => exact ⟨acc, rfl⟩
        | arr ys2 => exact ⟨acc, rfl⟩
      obtain ⟨a, ha⟩ := hstep
      obtain ⟨es, hes⟩ := ih hrest a
      refine ⟨es, ?_⟩
      rw [List.foldlM_cons, ha]
      exact hes
  exact main xs hall []

/-- C8: `Manifest.load` returns an empty manifest when no file exists;
it raises when the file exists but is unreadable/unparseable, when the
parsed document is not an object (the `data.get` call raises), and when
the `entries` value is truthy but neither a list nor an object. -/
theorem manifest_load_contract (fields : List (String × Json)) (v data : Json)
    (hE : jGet fields "entries" = some v)
    (hT : truthy v = true)
    (hC : isCollection v = false)
    (hD : isObj data = false) :
    Manifest.load .absent = .ok ⟨Json.obj [], []⟩ ∧
    Manifest.load .unreadable = .error .readFailed ∧
    Manifest.load (.parsed (.obj fields)) = .error .entriesNotAMapping ∧
    Manifest.load (.parsed data) = .error .notAnObject := by
  refine ⟨rfl, rfl, ?_, ?_⟩
  · have hpy : pyOr (jGet fields "entries") (Json.obj []) = v := by
      rw [hE]
      simp [pyOr, hT]
    simp only [Manifest.load, hpy]
    cases v with
    | null => simp [truthy] at hT
    | bool b => rfl
    | num n => rfl
    | str s => rfl
    | arr xs => simp [isCollection] at hC
    | obj fs => simp [isCollection] at hC
  · cases data with
    | obj fs => simp [isObj] at hD
    | null => rfl
    | bool b => rfl
    | num n => rfl
    | str s => rfl
    | arr xs => rfl

/-- Witness for C8: a manifest whose `entries` is the string `"bad"`
raises, a non-object manifest document raises, absence loads empty. -/
theorem manifest_load_contract_witness :
    Manifest.load .absent = .ok ⟨Json.obj [], []⟩ ∧
    Manifest.load .unreadable = .error .readFailed ∧
    Manifest.load (.parsed (.obj [("entries", Json.str "bad")])) =
      .error .entriesNotAMapping ∧
    Manifest.load (.parsed (.arr [])) = .error .notAnObject :=
  manifest_load_contract [("entries", Json.str "bad")] (Json.str "bad")
    (Json.arr []) rfl rfl rfl rfl

/-- C10 counterexample: an entries list item that is an object with a
truthy `url` can still make `Manifest.load` fail — a non-empty list as
the `url` value passes the line-265 keep-condition
`isinstance(e, dict) and e.get("url")` but is unhashable, so building
the dict raises `TypeError` out of `Manifest.load`, contradicting both
"does not fail" and "only an entries value that is neither a list nor
an object raises a hard failure". -/
theorem manifest_load_unhashable_url_cex :
    keptItem (Json.obj [("url", Json.arr [Json.str "x"])]) = true ∧
    Manifest.load (.parsed (.obj [("entries",
      Json.arr [Json.obj [("url", Json.arr [Json.str "x"])]])])) =
      .error .unhashableUrl :=
  ⟨rfl, rfl⟩

/-- C10 (amended): when the `entries` field parses as a JSON list whose
kept items (objects with a truthy `url`) all carry hashable urls — in
particular string urls — `Manifest.load` does not fail: it converts the
list into a mapping keyed by each kept item's `url` value, silently
dropping every item that is not an object or lacks a truthy (for
strings: non-empty) `url`; a kept item whose truthy `url` is unhashable
(a non-empty list or object) raises instead, and on an object-shaped
document the only other load failure is an `entries` value that is
truthy yet neither a list nor an object. -/
theorem manifest_load_list_entries (fields fields2 : List (String × Json))
    (xs : List Json) (err : LoadErr)
    (hE : jGet fields "entries" = some (Json.arr xs))
    (hall : xs.all urlHashableItem = true)
    (herr : Manifest.load (.parsed (.obj fields2)) = .error err) :
    (∃ es, listToEntries xs = .ok es ∧
      Manifest.load (.parsed (.obj fields)) =
        .ok ⟨pyOr (jGet fields "meta") (Json.obj []), es⟩ ∧
      ∀ p ∈ es, keptItem p.2 = true ∧ urlOfItem p.2 = some p.1) ∧
    ((err = .entriesNotAMapping ∧
        isCollection (pyOr (jGet fields2 "entries") (Json.obj [])) = false) ∨
      err = .unhashableUrl) := by
  have hall2 : ∀ e ∈ xs, urlHashableItem e = true := List.all_eq_true.mp hall
  constructor
  · obtain ⟨es, hes⟩ := listToEntries_ok_of_hashable xs hall2
    refine ⟨es, hes, ?_, listToEntries_mem xs es hes⟩
    simp only [Manifest.load, hE]
    cases xs with
    | nil =>
      have h0 : listToEntries ([] : List Json) = .ok ([] : List (Json × Json)) :=
        rfl
      have hnil : es = [] := Except.ok.inj (hes.symm.trans h0)
      subst hnil
      simp [pyOr, truthy]
    | cons y ys =>
      have hpy : pyOr (some (Json.arr (y :: ys))) (Json.obj []) =
          Json.arr (y :: ys) := by
        simp [pyOr, truthy]
      simp only [hpy, hes, Except.map]
  · have h4 := herr
    simp only [Manifest.load] at h4
    cases hv : pyOr (jGet fields2 "entries") (Json.obj []) with
    | arr zs =>
      rw [hv] at h4
      have h5 : (listToEntries zs).map
          (fun es =>
            (⟨pyOr (jGet fields2 "meta") (Json.obj []), es⟩ : LoadedManifest)) =
          Except.error err := h4
      cases hle : listToEntries zs with
      | ok es2 =>
        rw [hle] at h5
        exact Except.noConfusion h5
      | error e2 =>
        rw [hle] at h5
        have he : e2 = err := Except.error.inj h5
        cases he
        exact Or.inr (listToEntries_error zs _ hle)
    | obj zfs =>
      rw [hv] at h4
      exact Except.noConfusion h4
    | null =>
      rw [hv] at h4
      exact Or.inl ⟨(Except.error.inj h4).symm, rfl⟩
    | bool b =>
      rw [hv] at h4
      exact Or.inl ⟨(Except.error.inj h4).symm, rfl⟩
    | num n =>
      rw [hv] at h4
      exact Or.inl ⟨(Except.error.inj h4).symm, rfl⟩
    | str s2 =>
      rw [hv] at h4
      exact Or.inl ⟨(Except.error.inj h4).symm, rfl⟩

/-- Witness for C10: a list-valued `entries` with one well-formed item,
one non-object item, one url-less object and one empty-url object loads
without failure keeping only the well-formed item; an `entries` of `5`
errors with the non-collection failure. -/
theorem manifest_load_list_entries_witness :
    Manifest.load (.parsed (.obj [("entries", Json.arr
      [Json.obj [("url", Json.str "a"), ("title", Json.str "T")],
       Json.str "junk",
       Json.obj [("x", Json.num 1)],
       Json.obj [("url", Json.str "")]])])) =
      .ok ⟨pyOr (jGet [("entries", Json.arr
        [Json.obj [("url", Json.str "a"), ("title", Json.str "T")],
         Json.str "junk",
         Json.obj [("x", Json.num 1)],
         Json.obj [("url", Json.str "")]])] "meta") (Json.obj []),
        [(Json.str "a", Json.obj [("url", Json.str "a"), ("title", Json.str "T")])]⟩ ∧
    isCollection (pyOr (jGet [("entries", Json.num 5)] "entries") (Json.obj [])) =
      false := by
  have h := manifest_load_list_entries
    [("entries", Json.arr
      [Json.obj [("url", Json.str "a"), ("title", Json.str "T")],
       Json.str "junk",
       Json.obj [("x", Json.num 1)],
       Json.obj [("url", Json.str "")]])]
    [("entries", Json.num 5)]
    [Json.obj [("url", Json.str "a"), ("title", Json.str "T")],
     Json.str "junk",
     Json.obj [("x", Json.num 1)],
     Json.obj [("url", Json.str "")]]
    .entriesNotAMapping rfl (by decide) rfl
  obtain ⟨es, hok, hload, hinv⟩ := h.1
  have h0 : listToEntries
      [Json.obj [("url", Json.str "a"), ("title", Json.str "T")],
       Json.str "junk",
       Json.obj [("x", Json.num 1)],
       Json.obj [("url", Json.str "")]] =
      .ok [(Json.str "a", Json.obj [("url", Json.str "a"), ("title", Json.str "T")])] :=
    rfl
  have hes : es =
      [(Json.str "a", Json.obj [("url", Json.str "a"), ("title", Json.str "T")])] :=
    Except.ok.inj (hok.symm.trans h0)
  subst hes
  refine ⟨hload, ?_⟩
  rcases h.2 with ⟨_, hic⟩ | hbad
  · exact hic
  · exact absurd hbad (by decide)

/-- Helper: every entry kept by `dedupeAux` has a url outside the seen
set. -/
theorem dedupeAux_mem_not_seen (l : List SitemapEntry) :
    ∀ (seen : List String) (e : SitemapEntry),
      e ∈ SitemapParser.dedupeAux seen l → e.url ∉ seen := by
  induction l with
  | nil =>
    intro seen e he
    simp [SitemapParser.dedupeAux] at he
  | cons a rest ih =>
    intro seen e he
    simp only [SitemapParser.dedupeAux] at he
    by_cases h : a.url ∈ seen
    · rw [if_pos h] at he
      exact ih seen e he
    · rw [if_neg h] at he
      rcases List.mem_cons.mp he with rfl | hm
      · exact h
      · intro hs
        exact ih (a.url :: seen) e hm (List.mem_cons_of_mem _ hs)

/-- Helper: the urls of a `dedupeAux` result are pairwise distinct. -/
theorem dedupeAux_nodup (l : List SitemapEntry) :
    ∀ seen, ((SitemapParser.dedupeAux seen l).map (fun e => e.url)).Nodup := by
  induction l with
  | nil =>
    intro seen
    simp [SitemapParser.dedupeAux]
  | cons a rest ih =>
    intro seen
    simp only [SitemapParser.dedupeAux]
    by_cases h : a.url ∈ seen
    · rw [if_pos h]
      exact ih seen
    · rw [if_neg h]
      simp only [List.map_cons, List.nodup_cons]
      refine ⟨?_, ih (a.url :: seen)⟩
      intro hmem
      rcases List.mem_map.mp hmem with ⟨e, he, heq⟩
      exact dedupeAux_mem_not_seen rest (a.url :: seen) e he
        (heq ▸ List.mem_cons_self _ _)

/-- Helper: `dedupeAux` keeps a subsequence of the input in order. -/
theorem dedupeAux_sublist (l : List SitemapEntry) :
    ∀ seen, (SitemapParser.dedupeAux seen l).Sublist l := by
  induction l with
  | nil =>
    intro seen
    simp [SitemapParser.dedupeAux]
  | cons a rest ih =>
    intro seen
    simp only [SitemapParser.dedupeAux]
    by_cases h : a.url ∈ seen
    · rw [if_pos h]
      exact (ih seen).cons a
    · rw [if_neg h]
      exact (ih (a.url :: seen)).cons₂ a

/-- Helper: `find?` on a cons whose head satisfies the predicate. -/
theorem find_cons_true {α : Type} (p : α → Bool) (a : α) (l : List α)
    (h : p a = true) : List.find? p (a :: l) = some a := by
  simp [List.find?, h]

/-- Helper: `find?` on a cons whose head fails the predicate. -/
theorem find_cons_false {α : Type} (p : α → Bool) (a : α) (l : List α)
    (h : p a = false) : List.find? p (a :: l) = List.find? p l := by
  simp [List.find?, h]

/-- Helper: for a url not in the seen set, the first entry with that url
in the deduplicated list is the first entry with that url in the input —
first occurrence wins. -/
theorem dedupeAux_find (l : List SitemapEntry) :
    ∀ (seen : List String) (u : String), u ∉ seen →
      (SitemapParser.dedupeAux seen l).find? (fun x => decide (x.url = u)) =
        l.find? (fun x => decide (x.url = u)) := by
  induction l with
  | nil =>
    intro seen u hu
    rfl
  | cons a rest ih =>
    intro seen u hu
    simp only [SitemapParser.dedupeAux]
    by_cases h : a.url ∈ seen
    · rw [if_pos h]
      have hne : (fun x => decide (x.url = u)) a = false := by
        simp only [decide_eq_false_iff_not]
        intro hau
        exact hu (hau ▸ h)
      rw [find_cons_false _ a rest hne]
      exact ih seen u hu
    · rw [if_neg h]
      by_cases hau : a.url = u
      · have hpa : (fun x => decide (x.url = u)) a = true := by
          simp [hau]
        rw [find_cons_true _ a _ hpa, find_cons_true _ a rest hpa]
      · have hne : (fun x => decide (x.url = u)) a = false := by
          simp [hau]
        rw [find_cons_false _ a _ hne, find_cons_false _ a rest hne]
        refine ih (a.url :: seen) u ?_
        intro hm
        rcases List.mem_cons.mp hm with heq | hm2
        · exact hau heq.symm
        · exact hu hm2

/-- Helper: a successful `_fetch_and_parse_recursive` result is either
empty (already-seen sitemap URL) or the deduplication of some list. -/
theorem fetchRec_ok_shape (fetch : String → Option XmlDoc) (fuel : Nat)
    (url : String) (seen : List String) (es : List SitemapEntry)
    (s : List String)
    (h : SitemapParser.fetchAndParseRecursive fetch fuel url seen = .ok (es, s)) :
    es = [] ∨ ∃ l, es = SitemapParser.dedupe l := by
  cases fuel with
  | zero => exact absurd h (by simp [SitemapParser.fetchAndParseRecursive])
  | succ n =>
    simp only [SitemapParser.fetchAndParseRecursive] at h
    by_cases hs : url ∈ seen
    · rw [if_pos hs] at h
      left
      have hinj : (([] : List SitemapEntry), seen) = (es, s) := Except.ok.inj h
      exact (congrArg Prod.fst hinj).symm
    · rw [if_neg hs] at h
      split at h
      · exact Except.noConfusion h
      · exact Except.noConfusion h
      · exact Except.noConfusion h
      · split at h
        · exact Except.noConfusion h
        · split at h
          · exact Except.noConfusion h
          · right
            have hinj := Except.ok.inj h
            exact ⟨_, (congrArg Prod.fst hinj).symm⟩
      · right
        have hinj := Except.ok.inj h
        exact ⟨_, (congrArg Prod.fst hinj).symm⟩

/-- C7: a successfully resolved sitemap (leaf url-set or recursively
expanded index) contains each URL at most once; deduplication keeps a
subsequence of the traversal with the first occurrence of each url
winning (`find?` is preserved); and the concrete root index with two
children of 2 URLs each sharing the duplicate `b` resolves to exactly
the 3 unique entries. -/
theorem sitemap_resolution_uniqueness (fetch : String → Option XmlDoc)
    (fuel : Nat) (url : String) (entries : List SitemapEntry)
    (seen : List String) (l : List SitemapEntry) (u : String)
    (h : SitemapParser.fetch_and_parse fetch fuel url = .ok (entries, seen)) :
    (entries.map (fun e => e.url)).Nodup ∧
    (SitemapParser.dedupe l).Sublist l ∧
    (SitemapParser.dedupe l).find? (fun x => decide (x.url = u)) =
      l.find? (fun x => decide (x.url = u)) ∧
    SitemapParser.fetch_and_parse exampleFetch 5 "root" =
      .ok ([⟨"a", none⟩, ⟨"b", none⟩, ⟨"c", none⟩], ["c2", "c1", "root"]) := by
  refine ⟨?_, dedupeAux_sublist l [], dedupeAux_find l [] u (by simp), rfl⟩
  rcases fetchRec_ok_shape fetch fuel url [] entries seen h with rfl | ⟨l0, rfl⟩
  · simp
  · exact dedupeAux_nodup l0 []

/-- Witness for C7: the fixture resolution succeeds with 3 unique urls,
and first-occurrence-wins on a concrete duplicated list. -/
theorem sitemap_resolution_uniqueness_witness :
    (([⟨"a", none⟩, ⟨"b", none⟩, ⟨"c", none⟩] : List SitemapEntry).map
      (fun e => e.url)).Nodup ∧
    (SitemapParser.dedupe [⟨"x", none⟩, ⟨"x", some "1"⟩]).find?
        (fun e => decide (e.url = "x")) =
      ([⟨"x", none⟩, ⟨"x", some "1"⟩] : List SitemapEntry).find?
        (fun e => decide (e.url = "x")) ∧
    SitemapParser.fetch_and_parse exampleFetch 5 "root" =
      .ok ([⟨"a", none⟩, ⟨"b", none⟩, ⟨"c", none⟩], ["c2", "c1", "root"]) := by
  have h := sitemap_resolution_uniqueness exampleFetch 5 "root"
    [⟨"a", none⟩, ⟨"b", none⟩, ⟨"c", none⟩] ["c2", "c1", "root"]
    [⟨"x", none⟩, ⟨"x", some "1"⟩] "x" rfl
  exact ⟨h.1, h.2.2.1, h.2.2.2⟩

/-- Helper: membership in a string-keyed Python dict upsert. -/
theorem pyDictSet_mem {α : Type} (m : List (String × α)) (k : String) (v : α)
    (p : String × α) (hp : p ∈ pyDictSet m k v) : p = (k, v) ∨ p ∈ m := by
  unfold pyDictSet at hp
  split at hp
  · rcases List.mem_map.mp hp with ⟨q, hq, hqe⟩
    rw [← hqe]
    by_cases h : q.1 = k
    · simp [h]
    · simp only [h, if_false]
      exact Or.inr hq
  · rcases List.mem_append.mp hp with h | h
    · exact Or.inr h
    · left
      simpa using h

/-- Helper: the keys present after a Python dict upsert are the inserted
key plus the previous keys. -/
theorem pyDictSet_key_mem {α : Type} (m : List (String × α)) (k : String)
    (v : α) (u : String) :
    (∃ p ∈ pyDictSet m k v, p.1 = u) ↔ (u = k ∨ ∃ p ∈ m, p.1 = u) := by
  constructor
  · rintro ⟨p, hp, hpu⟩
    rcases pyDictSet_mem m k v p hp with rfl | hm
    · exact Or.inl hpu.symm
    · exact Or.inr ⟨p, hm, hpu⟩
  · intro h
    rcases h with rfl | ⟨p, hp, hpu⟩
    · unfold pyDictSet
      split
      case isTrue hany =>
        rcases List.any_eq_true.mp hany with ⟨q, hq, hqk⟩
        refine ⟨(u, v), List.mem_map.mpr ⟨q, hq, ?_⟩, rfl⟩
        rw [if_pos (of_decide_eq_true hqk)]
      case isFalse =>
        exact ⟨(u, v), List.mem_append.mpr (Or.inr (by simp)), rfl⟩
    · unfold pyDictSet
      split
      case isTrue hany =>
        by_cases hpk : p.1 = k
        · refine ⟨(k, v), List.mem_map.mpr ⟨p, hp, by rw [if_pos hpk]⟩, ?_⟩
          rw [← hpu, hpk]
        · exact ⟨p, List.mem_map.mpr ⟨p, hp, by rw [if_neg hpk]⟩, hpu⟩
      case isFalse =>
        exact ⟨p, List.mem_append.mpr (Or.inl hp), hpu⟩

/-- Helper: a `mLookup` hit is exactly a key occurrence. -/
theorem mLookup_isSome (m : List (String × MEntry)) (u : String) :
    (mLookup m u).isSome = true ↔ ∃ p ∈ m, p.1 = u := by
  unfold mLookup
  rw [Option.isSome_map']
  rw [List.find?_isSome]
  constructor
  · rintro ⟨p, hp, hd⟩
    exact ⟨p, hp, of_decide_eq_true hd⟩
  · rintro ⟨p, hp, hd⟩
    exact ⟨p, hp, decide_eq_true hd⟩

/-- Helper: after an upsert the inserted key is present. -/
theorem pyDictSet_any_key {α : Type} (m : List (String × α)) (k : String)
    (v : α) : (pyDictSet m k v).any (fun q => decide (q.1 = k)) = true := by
  rcases (pyDictSet_key_mem m k v k).mpr (Or.inl rfl) with ⟨p, hp, hpk⟩
  exact List.any_eq_true.mpr ⟨p, hp, decide_eq_true hpk⟩

/-- Helper: an upsert preserves the presence of every key. -/
theorem pyDictSet_any_key_mono {α : Type} (m : List (String × α)) (k : String)
    (v : α) (u : String) (h : m.any (fun q => decide (q.1 = u)) = true) :
    (pyDictSet m k v).any (fun q => decide (q.1 = u)) = true := by
  rcases List.any_eq_true.mp h with ⟨q, hq, hqu⟩
  rcases (pyDictSet_key_mem m k v u).mpr
    (Or.inr ⟨q, hq, of_decide_eq_true hqu⟩) with ⟨p, hp, hpk⟩
  exact List.any_eq_true.mpr ⟨p, hp, decide_eq_true hpk⟩

/-- Helper: the staged scratch tree always contains the index file. -/
theorem stagedScratch_has_index (w : SyncWorld) (cfg : SyncConfig)
    (st : LoopState) (now : String) (n : Nat) :
    ((stagedScratch w cfg st now n).any
      (fun q => decide (q.1 = cfg.index_filename))) = true := by
  unfold stagedScratch
  exact pyDictSet_any_key_mono _ _ _ _ (pyDictSet_any_key _ _ _)

/-- Helper: per-entry effect on the success/fail counters — a reused or
successfully fetched entry bumps success, a failed fetch bumps fail. -/
theorem processEntry_counts (w : SyncWorld) (force : Bool)
    (old : List (String × MEntry)) (now : String) (st : LoopState)
    (e : SitemapEntry) :
    (processEntry w force old now st e).success_count =
      st.success_count + (if entrySucceeds w force old e = true then 1 else 0) ∧
    (processEntry w force old now st e).fail_count =
      st.fail_count + (if entrySucceeds w force old e = true then 0 else 1) := by
  cases hnd : needDownload force old w.live (w.url_to_rel_path e.url) e with
  | true =>
    simp only [processEntry, entrySucceeds, hnd]
    cases hf : w.fetch (md_url e.url) with
    | none => simp [hf]
    | some c => simp [hf]
  | false =>
    simp [processEntry, entrySucceeds, hnd]

/-- Helper: a failed entry leaves the new manifest unchanged. -/
theorem processEntry_manifest_fail (w : SyncWorld) (force : Bool)
    (old : List (String × MEntry)) (now : String) (st : LoopState)
    (e : SitemapEntry) (h : entrySucceeds w force old e = false) :
    (processEntry w force old now st e).manifest = st.manifest := by
  cases hnd : needDownload force old w.live (w.url_to_rel_path e.url) e with
  | true =>
    simp only [entrySucceeds, hnd, if_true] at h
    have hf : w.fetch (md_url e.url) = none := by
      cases hf : w.fetch (md_url e.url) with
      | none => rfl
      | some c => rw [hf] at h; simp at h
    simp [processEntry, hnd, hf]
  | false =>
    simp [entrySucceeds, hnd] at h

/-- Helper: a successful entry upserts exactly its URL into the new
manifest. -/
theorem processEntry_manifest_key (w : SyncWorld) (force : Bool)
    (old : List (String × MEntry)) (now : String) (st : LoopState)
    (e : SitemapEntry) (u : String) (h : entrySucceeds w force old e = true) :
    ((mLookup (processEntry w force old now st e).manifest u).isSome = true ↔
      (u = e.url ∨ (mLookup st.manifest u).isSome = true)) := by
  cases hnd : needDownload force old w.live (w.url_to_rel_path e.url) e with
  | true =>
    simp only [entrySucceeds, hnd, if_true] at h
    cases hf : w.fetch (md_url e.url) with
    | none => rw [hf] at h; simp at h
    | some c =>
      simp only [processEntry, hnd, hf, if_true]
      rw [mLookup_isSome, pyDictSet_key_mem, ← mLookup_isSome]
  | false =>
    simp only [processEntry, hnd, Bool.false_eq_true, if_false]
    rw [mLookup_isSome, pyDictSet_key_mem, ← mLookup_isSome]

/-- Helper: after the fetch loop the new manifest contains a url iff
some processed entry with that url succeeded. -/
theorem runLoop_manifest_key (w : SyncWorld) (force : Bool)
    (old : List (String × MEntry)) (now : String) :
    ∀ (es : List SitemapEntry) (st : LoopState) (u : String),
      (mLookup ((es.foldl (processEntry w force old now) st)).manifest u).isSome =
          true ↔
        ((mLookup st.manifest u).isSome = true ∨
          ∃ e ∈ es, e.url = u ∧ entrySucceeds w force old e = true) := by
  intro es
  induction es with
  | nil =>
    intro st u
    simp
  | cons e rest ih =>
    intro st u
    rw [List.foldl_cons, ih]
    cases hs : entrySucceeds w force old e with
    | true =>
      rw [processEntry_manifest_key w force old now st e u hs]
      simp only [List.mem_cons]
      constructor
      · rintro (h | ⟨x, hx, hxu, hxs⟩)
        · rcases h with he | hst
          · exact Or.inr ⟨e, Or.inl rfl, he.symm, hs⟩
          · exact Or.inl hst
        · exact Or.inr ⟨x, Or.inr hx, hxu, hxs⟩
      · rintro (hst | ⟨x, hx, hxu, hxs⟩)
        · exact Or.inl (Or.inr hst)
        · rcases hx with rfl | hx
          · exact Or.inl (Or.inl hxu.symm)
          · exact Or.inr ⟨x, hx, hxu, hxs⟩
    | false =>
      rw [processEntry_manifest_fail w force old now st e hs]
      simp only [List.mem_cons]
      constructor
      · rintro (hst | ⟨x, hx, hxu, hxs⟩)
        · exact Or.inl hst
        · exact Or.inr ⟨x, Or.inr hx, hxu, hxs⟩
      · rintro (hst | ⟨x, hx, hxu, hxs⟩)
        · exact Or.inl hst
        · rcases hx with rfl | hx
          · rw [hs] at hxs
            exact absurd hxs (by simp)
          · exact Or.inr ⟨x, hx, hxu, hxs⟩

/-- Helper: after the fetch loop the counters are exactly the number of
failing and of succeeding entries. -/
theorem runLoop_counts (w : SyncWorld) (force : Bool)
    (old : List (String × MEntry)) (now : String) :
    ∀ (es : List SitemapEntry) (st : LoopState),
      (es.foldl (processEntry w force old now) st).fail_count =
        st.fail_count + es.countP (fun e => !(entrySucceeds w force old e)) ∧
      (es.foldl (processEntry w force old now) st).success_count =
        st.success_count + es.countP (fun e => entrySucceeds w force old e) := by
  intro es
  induction es with
  | nil =>
    intro st
    simp
  | cons e rest ih =>
    intro st
    rw [List.foldl_cons, List.countP_cons, List.countP_cons]
    obtain ⟨ihf, ihs⟩ := ih (processEntry w force old now st e)
    obtain ⟨hcs, hcf⟩ := processEntry_counts w force old now st e
    constructor
    · rw [ihf, hcf]
      cases hs : entrySucceeds w force old e <;> simp [hs] <;> omega
    · rw [ihs, hcs]
      cases hs : entrySucceeds w force old e <;> simp [hs] <;> omega

/-- Helper: the nested reuse/refetch decision flattened into the
disjunction stated by the specification. -/
theorem needDownload_flat (force : Bool) (old : List (String × MEntry))
    (live : String → Option String) (rel : String) (e : SitemapEntry) :
    needDownload force old live rel e =
      (force || (mLookup old e.url).isNone || e.lastmod.isNone ||
        ((mLookup old e.url).bind (fun x => x.lastmod)).isNone ||
        !(decide (e.lastmod = (mLookup old e.url).bind (fun x => x.lastmod))) ||
        (live rel).isNone) := by
  cases force with
  | true => rfl
  | false =>
    cases hml : mLookup old e.url with
    | none => simp [needDownload, hml]
    | some oe =>
      cases hel : e.lastmod with
      | none => simp [needDownload, hml, hel]
      | some nl =>
        cases hol : oe.lastmod with
        | none => simp [needDownload, hml, hel, hol]
        | some ol =>
          simp only [needDownload, hml, hel, hol]
          by_cases hq : nl = ol
          · simp [hq, hol]
          · simp [hq, hol]

/-- C2: for every sitemap entry, the orchestrator refetches exactly when
the force flag is set, or no prior manifest entry exists for the URL, or
the previous and current lastmod differ or either is absent, or the
previously mirrored file is missing from the live directory; otherwise
the entry is reused with no fetch (the result does not depend on the
fetch oracle and the downloaded counter is untouched), the existing
live file is copied unchanged into the scratch tree, and the new
manifest entry carries over the old entry's title, description and
last_sync_time unchanged (the last under the well-formedness assumption
that the stored timestamp is non-empty, since Python replaces a falsy
timestamp with the current time). -/
theorem sync_docs_reuse_decision (w : SyncWorld) (f : String → Option String)
    (force : Bool) (old : List (String × MEntry)) (now : String)
    (st : LoopState) (e : SitemapEntry) (oe : MEntry) :
    needDownload force old w.live (w.url_to_rel_path e.url) e =
      (force || (mLookup old e.url).isNone || e.lastmod.isNone ||
        ((mLookup old e.url).bind (fun x => x.lastmod)).isNone ||
        !(decide (e.lastmod = (mLookup old e.url).bind (fun x => x.lastmod))) ||
        (w.live (w.url_to_rel_path e.url)).isNone) ∧
    (needDownload force old w.live (w.url_to_rel_path e.url) e = false →
      mLookup old e.url = some oe →
      oe.last_sync_time ≠ "" →
      ∃ c, w.live (w.url_to_rel_path e.url) = some c ∧
        processEntry w force old now st e =
          { st with
              scratch := pyDictSet st.scratch (w.url_to_rel_path e.url) (.text c)
              reused_count := st.reused_count + 1
              success_count := st.success_count + 1
              docs_info := st.docs_info ++
                [(e.url, oe.title, oe.description, w.url_to_rel_path e.url)]
              manifest := pyDictSet st.manifest e.url
                ⟨e.url, e.lastmod, w.url_to_rel_path e.url, oe.title,
                  oe.description, oe.last_sync_time⟩ } ∧
        processEntry { w with fetch := f } force old now st e =
          processEntry w force old now st e) := by
  refine ⟨needDownload_flat force old w.live (w.url_to_rel_path e.url) e, ?_⟩
  intro hnd hoe hts
  have hforce : force = false := by
    cases force
    · rfl
    · rw [needDownload_flat] at hnd
      simp at hnd
  subst hforce
  cases hlv : w.live (w.url_to_rel_path e.url) with
  | none =>
    rw [needDownload_flat] at hnd
    simp [hlv] at hnd
  | some c =>
    refine ⟨c, rfl, ?_, ?_⟩
    · simp [processEntry, hnd, hoe, hts, hlv]
    · simp [processEntry, hnd]

/-- Witness for C2: an entry with matching lastmod, a prior manifest
entry and the file present on disk is reused — the live file body is
copied into the scratch tree and title/description/timestamp carry
over. -/
theorem sync_docs_reuse_decision_witness :
    needDownload false [("u", ⟨"u", some "2024-01-01", "d.md", "T", "D", "t0"⟩)]
      (fun p => if p = "d.md" then some "BODY" else none) "d.md"
      ⟨"u", some "2024-01-01"⟩ = false ∧
    processEntry
      ⟨fun _ => some "UNUSED", fun p => if p = "d.md" then some "BODY" else none,
        fun _ => "d.md", fun c _ => c, fun _ => "I"⟩
      false [("u", ⟨"u", some "2024-01-01", "d.md", "T", "D", "t0"⟩)] "now"
      initLoopState ⟨"u", some "2024-01-01"⟩ =
      { initLoopState with
          scratch := [("d.md", .text "BODY")]
          reused_count := 1
          success_count := 1
          docs_info := [("u", "T", "D", "d.md")]
          manifest := [("u", ⟨"u", some "2024-01-01", "d.md", "T", "D", "t0"⟩)] } := by
  have h := sync_docs_reuse_decision
    ⟨fun _ => some "UNUSED", fun p => if p = "d.md" then some "BODY" else none,
      fun _ => "d.md", fun c _ => c, fun _ => "I"⟩
    (fun _ => none) false
    [("u", ⟨"u", some "2024-01-01", "d.md", "T", "D", "t0"⟩)] "now"
    initLoopState ⟨"u", some "2024-01-01"⟩
    ⟨"u", some "2024-01-01", "d.md", "T", "D", "t0"⟩
  obtain ⟨c, hc, hp, hf⟩ := h.2 (by decide) (by decide) (by decide)
  have hcb : "BODY" = c := Option.some.inj hc
  subst hcb
  exact ⟨by decide, hp.trans (by decide)⟩

/-- C3: with the sanity check passing and every required file staged,
the run aborts after the fetch loop (with exit code 1 and no commit)
exactly when the failure ratio exceeds `max_fail_ratio` or no entry
succeeded; the failure count is exactly the number of failing entries;
and otherwise the run commits, with the new manifest containing
precisely the urls of the entries that succeeded (so each failed entry
is absent and every successful entry is present). -/
theorem sync_docs_fail_ratio_guard (w : SyncWorld) (cfg : SyncConfig)
    (prevCount : Option CountVal) (old : List (String × MEntry))
    (entries : List SitemapEntry) (now : String)
    (hne : entries.length ≠ 0)
    (hsan : sanityDropExceeded prevCount entries.length cfg.sanity_drop_ratio =
      none)
    (hreq : ∀ p ∈ cfg.required_files,
      ((stagedScratch w cfg (runLoop w cfg.force old now entries) now
        entries.length).any (fun q => decide (q.1 = p))) = true) :
    ((sync_docs w cfg prevCount old entries now =
        .failRatioAbort (runLoop w cfg.force old now entries) ∨
      sync_docs w cfg prevCount old entries now =
        .noSuccessAbort (runLoop w cfg.force old now entries)) ↔
      (mkRat ((runLoop w cfg.force old now entries).fail_count : Int)
          entries.length > cfg.max_fail_ratio ∨
        (runLoop w cfg.force old now entries).success_count = 0)) ∧
    ((mkRat ((runLoop w cfg.force old now entries).fail_count : Int)
          entries.length > cfg.max_fail_ratio ∨
        (runLoop w cfg.force old now entries).success_count = 0) →
      returnCode (sync_docs w cfg prevCount old entries now) = 1) ∧
    (runLoop w cfg.force old now entries).fail_count =
      entries.countP (fun e => !(entrySucceeds w cfg.force old e)) ∧
    (¬(mkRat ((runLoop w cfg.force old now entries).fail_count : Int)
          entries.length > cfg.max_fail_ratio ∨
        (runLoop w cfg.force old now entries).success_count = 0) →
      sync_docs w cfg prevCount old entries now =
        .committed (runLoop w cfg.force old now entries)
          (stagedScratch w cfg (runLoop w cfg.force old now entries) now
            entries.length) ∧
      (∀ u, ((mLookup (runLoop w cfg.force old now entries).manifest u).isSome =
          true ↔
        ∃ e ∈ entries, e.url = u ∧ entrySucceeds w cfg.force old e = true))) := by
  have hcount := (runLoop_counts w cfg.force old now entries initLoopState).1
  by_cases h1 : mkRat ((runLoop w cfg.force old now entries).fail_count : Int)
      entries.length > cfg.max_fail_ratio
  · have hsync : sync_docs w cfg prevCount old entries now =
        .failRatioAbort (runLoop w cfg.force old now entries) := by
      simp only [sync_docs, hsan]
      rw [if_neg hne, if_pos h1]
    refine ⟨⟨fun _ => Or.inl h1, fun _ => Or.inl hsync⟩, ?_, ?_, ?_⟩
    · intro _
      rw [hsync]
      rfl
    · simpa [runLoop, initLoopState] using hcount
    · intro hno
      exact absurd (Or.inl h1) hno
  · by_cases h2 : (runLoop w cfg.force old now entries).success_count = 0
    · have hsync : sync_docs w cfg prevCount old entries now =
          .noSuccessAbort (runLoop w cfg.force old now entries) := by
        simp only [sync_docs, hsan]
        rw [if_neg hne, if_neg h1, if_pos h2]
      refine ⟨⟨fun _ => Or.inr h2, fun _ => Or.inr hsync⟩, ?_, ?_, ?_⟩
      · intro _
        rw [hsync]
        rfl
      · simpa [runLoop, initLoopState] using hcount
      · intro hno
        exact absurd (Or.inr h2) hno
    · have hmiss : cfg.required_files.filter
          (fun p => !((stagedScratch w cfg (runLoop w cfg.force old now entries)
            now entries.length).any (fun q => decide (q.1 = p)))) = [] := by
        rw [List.filter_eq_nil_iff]
        intro p hp
        simp [hreq p hp]
      have hsync : sync_docs w cfg prevCount old entries now =
          .committed (runLoop w cfg.force old now entries)
            (stagedScratch w cfg (runLoop w cfg.force old now entries) now
              entries.length) := by
        simp only [sync_docs, hsan]
        rw [if_neg hne, if_neg h1, if_neg h2, hmiss]
        rw [if_neg (by simp)]
        rw [stagedScratch_has_index w cfg (runLoop w cfg.force old now entries)
          now entries.length]
        rfl
      refine ⟨⟨?_, ?_⟩, ?_, ?_, ?_⟩
      · intro hab
        rcases hab with he | he
        · rw [hsync] at he
          exact absurd he (by simp)
        · rw [hsync] at he
          exact absurd he (by simp)
      · intro hc
        rcases hc with hc | hc
        · exact absurd hc h1
        · exact absurd hc h2
      · intro hc
        rcases hc with hc | hc
        · exact absurd hc h1
        · exact absurd hc h2
      · simpa [runLoop, initLoopState] using hcount
      · intro _
        refine ⟨hsync, fun u => ?_⟩
        have hk := runLoop_manifest_key w cfg.force old now entries initLoopState u
        constructor
        · intro hmem
          rcases hk.mp hmem with hinit | he
          · exact absurd hinit (by simp [initLoopState, mLookup])
          · exact he
        · intro he
          exact hk.mpr (Or.inr he)

/-- Witness for C3: 10 entries with exactly 1 failing fetch (10%, within
the 15% tolerance) — the run commits (exit code 0), the failed url `u9`
is absent from the new manifest, a successful url `u3` is present. -/
theorem sync_docs_fail_ratio_guard_witness :
    returnCode (sync_docs
      ⟨fun u => if u = "u9.md" then none else some "# T\nbody text",
        fun _ => none, fun u => u, fun c _ => c, fun _ => "IDX"⟩
      ⟨false, mkRat 20 100, mkRat 15 100, [], ".manifest.json", "index.md"⟩
      none []
      [⟨"u0", none⟩, ⟨"u1", none⟩, ⟨"u2", none⟩, ⟨"u3", none⟩, ⟨"u4", none⟩,
       ⟨"u5", none⟩, ⟨"u6", none⟩, ⟨"u7", none⟩, ⟨"u8", none⟩, ⟨"u9", none⟩]
      "now") = 0 ∧
    (mLookup (runLoop
      ⟨fun u => if u = "u9.md" then none else some "# T\nbody text",
        fun _ => none, fun u => u, fun c _ => c, fun _ => "IDX"⟩
      false []
      "now"
      [⟨"u0", none⟩, ⟨"u1", none⟩, ⟨"u2", none⟩, ⟨"u3", none⟩, ⟨"u4", none⟩,
       ⟨"u5", none⟩, ⟨"u6", none⟩, ⟨"u7", none⟩, ⟨"u8", none⟩, ⟨"u9", none⟩]).manifest
      "u9").isSome = false ∧
    (mLookup (runLoop
      ⟨fun u => if u = "u9.md" then none else some "# T\nbody text",
        fun _ => none, fun u => u, fun c _ => c, fun _ => "IDX"⟩
      false []
      "now"
      [⟨"u0", none⟩, ⟨"u1", none⟩, ⟨"u2", none⟩, ⟨"u3", none⟩, ⟨"u4", none⟩,
       ⟨"u5", none⟩, ⟨"u6", none⟩, ⟨"u7", none⟩, ⟨"u8", none⟩, ⟨"u9", none⟩]).manifest
      "u3").isSome = true := by
  have h := sync_docs_fail_ratio_guard
    ⟨fun u => if u = "u9.md" then none else some "# T\nbody text",
      fun _ => none, fun u => u, fun c _ => c, fun _ => "IDX"⟩
    ⟨false, mkRat 20 100, mkRat 15 100, [], ".manifest.json", "index.md"⟩
    none []
    [⟨"u0", none⟩, ⟨"u1", none⟩, ⟨"u2", none⟩, ⟨"u3", none⟩, ⟨"u4", none⟩,
     ⟨"u5", none⟩, ⟨"u6", none⟩, ⟨"u7", none⟩, ⟨"u8", none⟩, ⟨"u9", none⟩]
    "now" (by decide) rfl (by intro p hp; cases hp)
  obtain ⟨hcommit, hkey⟩ := h.2.2.2 (by decide)
  refine ⟨by rw [hcommit]; rfl, ?_, ?_⟩
  · cases hiso : (mLookup (runLoop
      ⟨fun u => if u = "u9.md" then none else some "# T\nbody text",
        fun _ => none, fun u => u, fun c _ => c, fun _ => "IDX"⟩
      false []
      "now"
      [⟨"u0", none⟩, ⟨"u1", none⟩, ⟨"u2", none⟩, ⟨"u3", none⟩, ⟨"u4", none⟩,
       ⟨"u5", none⟩, ⟨"u6", none⟩, ⟨"u7", none⟩, ⟨"u8", none⟩,
       ⟨"u9", none⟩]).manifest "u9").isSome with
    | false => rfl
    | true => exact absurd ((hkey "u9").mp hiso) (by decide)
  · exact (hkey "u3").mpr (by decide)
